import Mathlib

/-!
Shallow embedding of the `derive-overwrites` procedural attribute
(`src/lib.rs`).  The crate exposes three attributes: two identity markers
(`skip`, `overwrite`) and the main `generate_overwrites` attribute, which
parses its argument list into a `GenerateArgs` record, classifies the
methods of the annotated `impl` block, and emits a trait declaration,
optionally a forwarding `impl` of that trait, a `compile_error!` artifact
when no method qualifies, and finally the original block unchanged.

Token contents that the transformation never inspects (method signatures,
method bodies, generic parameter lists, attribute payloads, the debug
rendering of a source span) are modelled as opaque strings; everything the
code branches on (attribute paths, visibility, self type shape, argument
tokens) is modelled structurally.
-/

/-- Visibility of an item, after `syn::Visibility`: the code only tests
`matches!(vis, Visibility::Public(_))`, but `syn` distinguishes three
constructors. -/
inductive Visibility
  | public
  | restricted
  | inherited
deriving DecidableEq, Repr

/-- An outer attribute `#[...]` on a method, after `syn::Attribute`.  The
code inspects only `attr.path().is_ident(..)`; the rest of the attribute
(its arguments or value) is carried opaquely in `tokens` because attributes
are echoed verbatim into the generated trait and impl. -/
structure Attr where
  leadingColon : Bool
  pathSegments : List String
  tokens : String
deriving DecidableEq, Repr

/-- Model of `syn::Path::is_ident`: true exactly when the path has no
leading `::` and a single segment equal to `s` (segment arguments are not
modelled; the markers in the examples are bare idents). -/
def Attr.isIdent (a : Attr) (s : String) : Bool :=
  !a.leadingColon && a.pathSegments = [s]

/-- An `ImplItem::Fn` of the input block: attributes, visibility, an opaque
signature token string and an opaque body token string. -/
structure Method where
  attrs : List Attr
  vis : Visibility
  sig : String
  block : String
deriving DecidableEq, Repr

/-- An item of the `impl` block.  The code only handles `ImplItem::Fn`;
consts, associated types etc. are other items it skips over. -/
inductive ImplItem
  | fn (m : Method)
  | other (tokens : String)
deriving DecidableEq, Repr

/-- The self type of the `impl` block, after `syn::Type`: the code matches
`Type::Path` and reads the last segment ident; every other type shape is
only echoed, so it is kept opaque. -/
inductive Ty
  | path (segments : List String)
  | other (tokens : String)
deriving DecidableEq, Repr

/-- The three projections of `generics.split_for_impl()`, kept as opaque
token strings since the code only splices them. -/
structure Generics where
  implGenerics : String
  tyGenerics : String
  whereClause : String
deriving DecidableEq, Repr

/-- The parsed `syn::ItemImpl`.  `spanDebug` models the string
`format!("{:?}", impl_block.span())` computed on the error path. -/
structure ItemImpl where
  generics : Generics
  selfTy : Ty
  items : List ImplItem
  spanDebug : String
deriving DecidableEq, Repr

/-- The configuration produced by `GenerateArgs::parse`:
`all = true` is the default-include policy (`default = "overwrite"`),
`all = false` the default-exclude policy (`default = "skip"`). -/
structure GenerateArgs where
  all : Bool
  passthrough : Bool
  name : Option String
deriving DecidableEq, Repr

/-- `struct_name` (lib.rs lines 31-34): the last path segment of the self
type when it is a path type, `None` otherwise. -/
def structName (b : ItemImpl) : Option String :=
  match b.selfTy with
  | Ty.path segments => segments.getLast?
  | Ty.other _ => none

/-- `trait_name` (lib.rs lines 36-40): the explicit `name` option when
given, else the struct name with the suffix `Overwrites` appended. -/
def traitName (args : GenerateArgs) (b : ItemImpl) : Option String :=
  match args.name with
  | some n => some n
  | none => (structName b).map (fun n => n ++ "Overwrites")

/-- `matches!(method.vis, syn::Visibility::Public(_))` (line 46). -/
def isPublic (v : Visibility) : Bool :=
  match v with
  | Visibility.public => true
  | _ => false

/-- `has_ignore` (line 48): some attribute path `is_ident("skip")`. -/
def hasSkip (m : Method) : Bool :=
  m.attrs.any (fun a => a.isIdent "skip")

/-- `has_overwrite` (lines 50-53): some attribute path `is_ident("overwrite")`. -/
def hasOverwrite (m : Method) : Bool :=
  m.attrs.any (fun a => a.isIdent "overwrite")

/-- The inclusion test of lines 55 and 80:
`is_public && ((all && !has_ignore) || (!all && has_overwrite))`. -/
def qualifies (all : Bool) (m : Method) : Bool :=
  isPublic m.vis && ((all && !hasSkip m) || (!all && hasOverwrite m))

/-- A method signature emitted into the trait (lines 59-62): the method's
attributes followed by its signature and a semicolon; no body. -/
structure TraitMethod where
  attrs : List Attr
  sig : String
deriving DecidableEq, Repr

/-- A method emitted into the forwarding impl (lines 85-88): attributes,
signature, and the original body block. -/
structure ImplMethod where
  attrs : List Attr
  sig : String
  block : String
deriving DecidableEq, Repr

/-- `trait_methods` (lines 42-65): walk the items in order, and for each
`ImplItem::Fn` passing the inclusion test push its attributes and
signature. -/
def traitMethods (all : Bool) : List ImplItem → List TraitMethod
  | [] => []
  | ImplItem.fn m :: rest =>
      if qualifies all m then
        { attrs := m.attrs, sig := m.sig } :: traitMethods all rest
      else
        traitMethods all rest
  | ImplItem.other _ :: rest => traitMethods all rest

/-- `impl_methods` inner loop (lines 68-91): same walk and same inclusion
test, additionally pushing the method's body block. -/
def implMethods (all : Bool) : List ImplItem → List ImplMethod
  | [] => []
  | ImplItem.fn m :: rest =>
      if qualifies all m then
        { attrs := m.attrs, sig := m.sig, block := m.block } :: implMethods all rest
      else
        implMethods all rest
  | ImplItem.other _ :: rest => implMethods all rest

/-- One top-level declaration of the expanded output token stream. -/
inductive Decl
  | compileError (msg : String) (spanDebug : String)
  | traitDecl (name : String) (implGenerics : String) (whereClause : String)
      (methods : List TraitMethod)
  | traitImpl (implGenerics : String) (traitName : String) (tyGenerics : String)
      (selfTy : Ty) (whereClause : String) (methods : List ImplMethod)
  | implBlock (b : ItemImpl)
deriving DecidableEq, Repr

/-- The message literal of the `compile_error!` invocation on line 105
(`\x7b\x7d` is the literal brace pair of the source string). -/
def emptyErrorMsg : String := "Must overwrite at least one function! \x7b\x7d"

/-- The body of `generate_overwrites` (lib.rs lines 21-139) after argument
and item parsing: compute `trait_methods`, compute `impl_methods` when
`passthrough` is set, then build `trait_and_impl` — a `compile_error!`
carrying the block's span when the trait name resolved but no method
qualified, the trait (and optionally the forwarding impl) otherwise, and
nothing at all when the trait name did not resolve — and append the
original block. -/
def generate_overwrites (args : GenerateArgs) (b : ItemImpl) : List Decl :=
  let trait_methods := traitMethods args.all b.items
  let impl_methods : Option (List ImplMethod) :=
    if args.passthrough then some (implMethods args.all b.items) else none
  let trait_and_impl : List Decl :=
    match traitName args b with
    | some tn =>
        if trait_methods.isEmpty then
          [Decl.compileError emptyErrorMsg b.spanDebug]
        else
          match impl_methods with
          | some ms =>
              [Decl.traitDecl tn b.generics.implGenerics b.generics.whereClause trait_methods,
               Decl.traitImpl b.generics.implGenerics tn b.generics.tyGenerics b.selfTy
                 b.generics.whereClause ms]
          | none =>
              [Decl.traitDecl tn b.generics.implGenerics b.generics.whereClause trait_methods]
    | none => []
  trait_and_impl ++ [Decl.implBlock b]

/-!
Option parser (`impl Parse for GenerateArgs`, lib.rs lines 147-194).
The argument token stream is modelled at the granularity the parser
consumes it: identifiers, `=`, string literals, and commas.
-/

/-- One token of the attribute argument stream. -/
inductive Tok
  | ident (s : String)
  | eq
  | litStr (s : String)
  | comma
deriving DecidableEq, Repr

/-- The parse loop of lines 153-186, one equation per shape of the input.
Each iteration parses an `Ident` (failing on any other leading token, as
`input.parse::<Ident>()` does), dispatches on its spelling, and then
consumes at most one trailing comma before looping.  The comma handling of
lines 183-185 is inlined into the patterns so that the recursion is
structural: for each recognized token there is one arm whose tail starts
with a comma (which is consumed) and one arm for any other tail. -/
def parseArgsAux : List Tok → Bool → Bool → Option String → Except String GenerateArgs
  | [], all, pt, nm => Except.ok { all := all, passthrough := pt, name := nm }
  | Tok.ident s :: rest, all, pt, nm =>
      if s = "default" then
        match rest with
        | Tok.eq :: Tok.litStr v :: Tok.comma :: rest2 =>
            if v = "overwrite" then parseArgsAux rest2 true pt nm
            else if v = "skip" then parseArgsAux rest2 false pt nm
            else Except.error "Expected 'overwrite' or 'skip'"
        | Tok.eq :: Tok.litStr v :: rest2 =>
            if v = "overwrite" then parseArgsAux rest2 true pt nm
            else if v = "skip" then parseArgsAux rest2 false pt nm
            else Except.error "Expected 'overwrite' or 'skip'"
        | _ => Except.error "expected string literal"
      else if s = "name" then
        match rest with
        | Tok.eq :: Tok.litStr v :: Tok.comma :: rest2 =>
            parseArgsAux rest2 all pt (some v)
        | Tok.eq :: Tok.litStr v :: rest2 =>
            parseArgsAux rest2 all pt (some v)
        | _ => Except.error "expected string literal"
      else if s = "passthrough" then
        match rest with
        | Tok.comma :: rest2 => parseArgsAux rest2 all true nm
        | rest2 => parseArgsAux rest2 all true nm
      else Except.error "Unknown argument"
  | Tok.eq :: _, _, _, _ => Except.error "expected identifier"
  | Tok.litStr _ :: _, _, _, _ => Except.error "expected identifier"
  | Tok.comma :: _, _, _, _ => Except.error "expected identifier"

/-- `GenerateArgs::parse`: run the loop from the defaults of lines 149-151
(`all = true`, `passthrough = false`, `name = None`). -/
def parseArgs (toks : List Tok) : Except String GenerateArgs :=
  parseArgsAux toks true false none

/-!
Further definitions used by the verification: the spec's own statement of
the inclusion rule, projections of the output, rendered argument lists for
the parser claims, and concrete example inputs.
-/

/-- The ordered method declarations of the block: the `ImplItem::Fn` items
in declaration order (the walks of lines 44 and 70 visit exactly these). -/
def fnMethods : List ImplItem → List Method
  | [] => []
  | ImplItem.fn m :: rest => m :: fnMethods rest
  | ImplItem.other _ :: rest => fnMethods rest

/-- The inclusion rule exactly as the spec states it (§4.2):
`m.visibility == Public AND ((defaultPolicy == Include AND Skip not in
m.markers) OR (defaultPolicy == Exclude AND Overwrite in m.markers))`,
with `policyInclude = true` standing for `defaultPolicy == Include` and a
marker being present when some attribute's path is that bare ident. -/
def qualifiesSpec (policyInclude : Bool) (m : Method) : Bool :=
  decide (m.vis = Visibility.public) &&
    ((policyInclude && !hasSkip m) || (!policyInclude && hasOverwrite m))

/-- Whether a declaration is the `compile_error!` failure artifact. -/
def Decl.isCompileError : Decl → Bool
  | Decl.compileError _ _ => true
  | _ => false

/-- Whether a declaration is the generated trait. -/
def Decl.isTraitDecl : Decl → Bool
  | Decl.traitDecl _ _ _ _ => true
  | _ => false

/-- Whether a declaration is the generated forwarding impl. -/
def Decl.isTraitImpl : Decl → Bool
  | Decl.traitImpl _ _ _ _ _ _ => true
  | _ => false

/-- One option token of the attribute argument list, at the level of the
grammar the parser recognizes. -/
inductive ArgTok
  | defaultA (v : String)
  | nameA (v : String)
  | passA
deriving DecidableEq, Repr

/-- A `default` token is well formed when its value is one of the two
accepted literals; the other tokens are always well formed. -/
def ArgTok.valid : ArgTok → Bool
  | ArgTok.defaultA v => v == "overwrite" || v == "skip"
  | _ => true

/-- The token rendering of one option. -/
def renderOne : ArgTok → List Tok
  | ArgTok.defaultA v => [Tok.ident "default", Tok.eq, Tok.litStr v]
  | ArgTok.nameA v => [Tok.ident "name", Tok.eq, Tok.litStr v]
  | ArgTok.passA => [Tok.ident "passthrough"]

/-- Comma-separated rendering of an option list (with trailing comma,
which the parser tolerates). -/
def renderComma : List ArgTok → List Tok
  | [] => []
  | a :: rest => renderOne a ++ Tok.comma :: renderComma rest

/-- Rendering of the same option list with no separators at all. -/
def renderPlain : List ArgTok → List Tok
  | [] => []
  | a :: rest => renderOne a ++ renderPlain rest

/-- Last-write-wins value of the `all` flag over an option list. -/
def lastAll (init : Bool) : List ArgTok → Bool
  | [] => init
  | ArgTok.defaultA v :: rest => lastAll (v == "overwrite") rest
  | _ :: rest => lastAll init rest

/-- Last-write-wins value of the `name` option over an option list. -/
def lastName (init : Option String) : List ArgTok → Option String
  | [] => init
  | ArgTok.nameA v :: rest => lastName (some v) rest
  | _ :: rest => lastName init rest

/-- Whether `passthrough` occurs (at least once) in an option list. -/
def anyPass (init : Bool) : List ArgTok → Bool
  | [] => init
  | ArgTok.passA :: rest => anyPass true rest
  | _ :: rest => anyPass init rest

/-- Empty generics, for the concrete examples. -/
def exGenerics : Generics := { implGenerics := "", tyGenerics := "", whereClause := "" }

/-- The bare `#[skip]` marker attribute. -/
def exSkipAttr : Attr := { leadingColon := false, pathSegments := ["skip"], tokens := "" }

/-- The bare `#[overwrite]` marker attribute. -/
def exOverwriteAttr : Attr := { leadingColon := false, pathSegments := ["overwrite"], tokens := "" }

/-- A non-marker attribute (a doc comment). -/
def exDocAttr : Attr := { leadingColon := false, pathSegments := ["doc"], tokens := "= \"docs\"" }

/-- A public method with no attributes. -/
def exPlainMethod : Method :=
  { attrs := [], vis := Visibility.public, sig := "fn tick(& self)", block := "tick_body" }

/-- A public method carrying the `#[overwrite]` marker and a doc attribute. -/
def exMarkedMethod : Method :=
  { attrs := [exOverwriteAttr, exDocAttr], vis := Visibility.public,
    sig := "fn tick(& self)", block := "tick_body" }

/-- A public method carrying the `#[skip]` marker. -/
def exSkippedMethod : Method :=
  { attrs := [exSkipAttr], vis := Visibility.public,
    sig := "fn tick(& self)", block := "tick_body" }

/-- An `impl Widget` block whose single method carries `#[overwrite]` and a
doc attribute. -/
def exWidgetImpl : ItemImpl :=
  { generics := exGenerics, selfTy := Ty.path ["Widget"],
    items := [ImplItem.fn exMarkedMethod], spanDebug := "src_lib_span_widget" }

/-- An `impl Widget` block whose single public method carries `#[skip]`. -/
def exSkippedImpl : ItemImpl :=
  { generics := exGenerics, selfTy := Ty.path ["Widget"],
    items := [ImplItem.fn exSkippedMethod], spanDebug := "src_lib_span_skipped" }

/-- An impl block whose target is not a path type, with one plain public
method. -/
def exTupleImpl : ItemImpl :=
  { generics := exGenerics, selfTy := Ty.other "(A, B)",
    items := [ImplItem.fn exPlainMethod], spanDebug := "src_lib_span_tuple" }

/-- An impl block whose target is not a path type and which has no items. -/
def exEmptyTupleImpl : ItemImpl :=
  { generics := exGenerics, selfTy := Ty.other "(A, B)",
    items := [], spanDebug := "src_lib_span_empty" }

/-- The default configuration (no attribute arguments). -/
def exDefaultArgs : GenerateArgs := { all := true, passthrough := false, name := none }

/-- The configuration of `default = "skip"` (default-exclude policy). -/
def exExcludeArgs : GenerateArgs := { all := false, passthrough := false, name := none }

/-- The configuration of a bare `passthrough`. -/
def exPassArgs : GenerateArgs := { all := true, passthrough := true, name := none }

/-- The configuration of `name = "Custom"`. -/
def exNamedArgs : GenerateArgs := { all := true, passthrough := false, name := some "Custom" }

/-- An option list with every token duplicated, for the last-wins claims. -/
def exDupArgToks : List ArgTok :=
  [ArgTok.defaultA "overwrite", ArgTok.nameA "A", ArgTok.passA,
   ArgTok.defaultA "skip", ArgTok.passA, ArgTok.nameA "B"]

/-!
Helper lemmas shared by the claim theorems.
-/

/-- The trait-method walk is the filter of the block's methods by the
inclusion test, projected to attributes and signature. -/
theorem traitMethods_eq_filter (all : Bool) (items : List ImplItem) :
    traitMethods all items =
      ((fnMethods items).filter (qualifies all)).map
        (fun m => { attrs := m.attrs, sig := m.sig }) := by
  induction items with
  | nil => rfl
  | cons it rest ih =>
      cases it with
      | fn m =>
          by_cases hq : qualifies all m
          · simp [traitMethods, fnMethods, List.filter_cons, hq, ih]
          · simp [traitMethods, fnMethods, List.filter_cons, hq, ih]
      | other t => simp [traitMethods, fnMethods, ih]

/-- The impl-method walk is the same filter, projected to attributes,
signature and body. -/
theorem implMethods_eq_filter (all : Bool) (items : List ImplItem) :
    implMethods all items =
      ((fnMethods items).filter (qualifies all)).map
        (fun m => { attrs := m.attrs, sig := m.sig, block := m.block }) := by
  induction items with
  | nil => rfl
  | cons it rest ih =>
      cases it with
      | fn m =>
          by_cases hq : qualifies all m
          · simp [implMethods, fnMethods, List.filter_cons, hq, ih]
          · simp [implMethods, fnMethods, List.filter_cons, hq, ih]
      | other t => simp [implMethods, fnMethods, ih]

/-- The code's inclusion test coincides with the spec's inclusion rule. -/
theorem qualifies_eq_qualifiesSpec (all : Bool) (m : Method) :
    qualifies all m = qualifiesSpec all m := by
  cases hv : m.vis <;> simp [qualifies, qualifiesSpec, isPublic, hv]

/-- A restatement of `generate_overwrites` with the `impl_methods` option
resolved, convenient for case analysis. -/
theorem generate_eq (args : GenerateArgs) (b : ItemImpl) :
    generate_overwrites args b =
      (match traitName args b with
       | some tn =>
           if (traitMethods args.all b.items).isEmpty then
             [Decl.compileError emptyErrorMsg b.spanDebug]
           else if args.passthrough then
             [Decl.traitDecl tn b.generics.implGenerics b.generics.whereClause
                (traitMethods args.all b.items),
              Decl.traitImpl b.generics.implGenerics tn b.generics.tyGenerics b.selfTy
                b.generics.whereClause (implMethods args.all b.items)]
           else
             [Decl.traitDecl tn b.generics.implGenerics b.generics.whereClause
                (traitMethods args.all b.items)]
       | none => []) ++ [Decl.implBlock b] := by
  obtain ⟨all, pt, nm⟩ := args
  unfold generate_overwrites
  cases htn : traitName { all := all, passthrough := pt, name := nm } b <;>
    cases pt <;>
      simp [htn]

/-- The only trait declaration `generate_overwrites` can emit carries the
resolved trait name, the block's split generics, and the trait-method
walk. -/
theorem traitDecl_mem_generate {args : GenerateArgs} {b : ItemImpl}
    {n ig wc : String} {ms : List TraitMethod}
    (h : Decl.traitDecl n ig wc ms ∈ generate_overwrites args b) :
    traitName args b = some n ∧ ig = b.generics.implGenerics ∧
      wc = b.generics.whereClause ∧ ms = traitMethods args.all b.items := by
  rw [generate_eq] at h
  cases htn : traitName args b <;> rw [htn] at h
  · simp at h
  · by_cases he : (traitMethods args.all b.items).isEmpty <;>
      cases hpt : args.passthrough <;>
        simp [he, hpt] at h <;> simp_all

/-- The only forwarding impl `generate_overwrites` can emit carries the
resolved trait name, the original self type, the block's split generics,
and the impl-method walk; and it is only emitted when `passthrough` is
set. -/
theorem traitImpl_mem_generate {args : GenerateArgs} {b : ItemImpl}
    {ig tn tyg wc : String} {sty : Ty} {ms : List ImplMethod}
    (h : Decl.traitImpl ig tn tyg sty wc ms ∈ generate_overwrites args b) :
    args.passthrough = true ∧ traitName args b = some tn ∧
      ig = b.generics.implGenerics ∧ tyg = b.generics.tyGenerics ∧
      sty = b.selfTy ∧ wc = b.generics.whereClause ∧
      ms = implMethods args.all b.items := by
  rw [generate_eq] at h
  cases htn : traitName args b <;> rw [htn] at h
  · simp at h
  · by_cases he : (traitMethods args.all b.items).isEmpty <;>
      cases hpt : args.passthrough <;>
        simp [he, hpt] at h
    simp_all

/-- Appending a singleton puts that element last. -/
theorem getLast_append_singleton {α : Type} (l : List α) (a : α) :
    (l ++ [a]).getLast? = some a := by
  rw [List.getLast?_append_cons]
  rfl

/-- Running the parse loop over a comma-separated rendering of well-formed
options succeeds from any state, and each recognized token overwrites the
corresponding field of the state (last write wins; `passthrough` is a
plain set-to-true). -/
theorem parseArgsAux_renderComma (ts : List ArgTok) :
    ∀ (all pt : Bool) (nm : Option String), (∀ a ∈ ts, a.valid = true) →
      parseArgsAux (renderComma ts) all pt nm =
        Except.ok { all := lastAll all ts, passthrough := anyPass pt ts,
                    name := lastName nm ts } := by
  induction ts with
  | nil => intro all pt nm _; rfl
  | cons a rest ih =>
      intro all pt nm hv
      have hrest : ∀ x ∈ rest, x.valid = true := fun x hx => hv x (List.mem_cons_of_mem a hx)
      have ha : a.valid = true := hv a (List.mem_cons_self a rest)
      cases a with
      | defaultA v =>
          rcases (by simpa [ArgTok.valid] using ha : v = "overwrite" ∨ v = "skip") with hvv | hvv <;>
            subst hvv <;>
              simp [renderComma, renderOne, parseArgsAux, lastAll, lastName, anyPass,
                ih _ _ _ hrest]
      | nameA v =>
          simp [renderComma, renderOne, parseArgsAux, lastAll, lastName, anyPass, ih _ _ _ hrest]
      | passA =>
          simp [renderComma, renderOne, parseArgsAux, lastAll, lastName, anyPass, ih _ _ _ hrest]

/-- Running the parse loop over the separator-free rendering of the same
well-formed options succeeds from any state with the same result: the
parser consumes at most one comma after each token and requires none. -/
theorem parseArgsAux_renderPlain (ts : List ArgTok) :
    ∀ (all pt : Bool) (nm : Option String), (∀ a ∈ ts, a.valid = true) →
      parseArgsAux (renderPlain ts) all pt nm =
        Except.ok { all := lastAll all ts, passthrough := anyPass pt ts,
                    name := lastName nm ts } := by
  induction ts with
  | nil => intro all pt nm _; rfl
  | cons a rest ih =>
      intro all pt nm hv
      have hrest : ∀ x ∈ rest, x.valid = true := fun x hx => hv x (List.mem_cons_of_mem a hx)
      have ha : a.valid = true := hv a (List.mem_cons_self a rest)
      cases a with
      | defaultA v =>
          rcases (by simpa [ArgTok.valid] using ha : v = "overwrite" ∨ v = "skip") with hvv | hvv <;>
            subst hvv
          · cases rest with
            | nil => simp [renderPlain, renderOne, parseArgsAux, lastAll, lastName, anyPass]
            | cons a2 rest2 =>
                cases a2 <;>
                  simpa [renderPlain, renderOne, parseArgsAux, lastAll, lastName, anyPass]
                    using ih true pt nm hrest
          · cases rest with
            | nil => simp [renderPlain, renderOne, parseArgsAux, lastAll, lastName, anyPass]
            | cons a2 rest2 =>
                cases a2 <;>
                  simpa [renderPlain, renderOne, parseArgsAux, lastAll, lastName, anyPass]
                    using ih false pt nm hrest
      | nameA v =>
          cases rest with
          | nil => simp [renderPlain, renderOne, parseArgsAux, lastAll, lastName, anyPass]
          | cons a2 rest2 =>
              cases a2 <;>
                simpa [renderPlain, renderOne, parseArgsAux, lastAll, lastName, anyPass]
                  using ih all pt (some v) hrest
      | passA =>
          cases rest with
          | nil => simp [renderPlain, renderOne, parseArgsAux, lastAll, lastName, anyPass]
          | cons a2 rest2 =>
              cases a2 <;>
                simpa [renderPlain, renderOne, parseArgsAux, lastAll, lastName, anyPass]
                  using ih all true nm hrest

/-- After any single well-formed option token followed by two consecutive
commas, the parse loop fails: the first comma is consumed as the optional
separator and the loop then demands an identifier, which the second comma
is not (the error `input.parse::<Ident>()` raises on line 154). -/
theorem parseArgsAux_double_comma (a : ArgTok) (rest : List Tok)
    (all pt : Bool) (nm : Option String) (ha : a.valid = true) :
    parseArgsAux (renderOne a ++ Tok.comma :: Tok.comma :: rest) all pt nm =
      Except.error "expected identifier" := by
  cases a with
  | defaultA v =>
      rcases (by simpa [ArgTok.valid] using ha : v = "overwrite" ∨ v = "skip") with hvv | hvv <;>
        subst hvv <;> simp [renderOne, parseArgsAux]
  | nameA v => simp [renderOne, parseArgsAux]
  | passA => simp [renderOne, parseArgsAux]

/-!
Claim theorems.
-/

/-- C1: for every method of the implementation block, membership in the
generated interface coincides with the spec's inclusion rule — the trait's
method list is exactly the declaration-ordered filter of the block's
methods by `qualifiesSpec` (public AND ((Include policy AND no Skip
marker) OR (Exclude policy AND an Overwrite marker))); and since
`qualifiesSpec` demands `Public` visibility, no non-public method is ever
included, regardless of its markers (second conjunct). -/
theorem C1_inclusion_rule (args : GenerateArgs) (b : ItemImpl)
    (n ig wc : String) (ms : List TraitMethod)
    (h : Decl.traitDecl n ig wc ms ∈ generate_overwrites args b) :
    ms = ((fnMethods b.items).filter (fun m => qualifiesSpec args.all m)).map
        (fun m => { attrs := m.attrs, sig := m.sig }) ∧
      ∀ m : Method, qualifiesSpec args.all m = true → m.vis = Visibility.public := by
  constructor
  · rw [(traitDecl_mem_generate h).2.2.2, traitMethods_eq_filter]
    have hq : qualifies args.all = fun m => qualifiesSpec args.all m :=
      funext (qualifies_eq_qualifiesSpec args.all)
    rw [hq]
  · intro m hm
    simp only [qualifiesSpec, Bool.and_eq_true, decide_eq_true_eq] at hm
    exact hm.1

/-- Closed instance of `C1_inclusion_rule`: under the default-exclude
policy the block `exWidgetImpl` generates a trait whose single signature is
the filter-projection of its methods. -/
theorem C1_witness :
    [({ attrs := [exOverwriteAttr, exDocAttr], sig := "fn tick(& self)" } : TraitMethod)] =
      ((fnMethods exWidgetImpl.items).filter (fun m => qualifiesSpec exExcludeArgs.all m)).map
        (fun m => { attrs := m.attrs, sig := m.sig }) :=
  (C1_inclusion_rule exExcludeArgs exWidgetImpl "WidgetOverwrites" "" ""
    [{ attrs := [exOverwriteAttr, exDocAttr], sig := "fn tick(& self)" }] (by decide)).1

/-- C2 counterexample: an input whose qualifying method set is empty but
whose target is not a simple named type (and no `name` option is given)
produces no failure artifact at all — only the echoed block — refuting the
claim for that input. -/
theorem C2_counterexample :
    traitMethods exDefaultArgs.all exEmptyTupleImpl.items = [] ∧
      generate_overwrites exDefaultArgs exEmptyTupleImpl =
        [Decl.implBlock exEmptyTupleImpl] ∧
      (generate_overwrites exDefaultArgs exEmptyTupleImpl).all
        (fun d => ! d.isCompileError) = true :=
  ⟨rfl, rfl, rfl⟩

/-- C2 (amended): for every input whose qualifying method set is empty and
whose interface name resolves (an explicit `name` was supplied or the
target is a simple named type), the output is exactly the `compile_error!`
artifact — whose message contains the word `overwrite` and which carries
the representation of the original block's source span — followed by the
original block: no interface declaration and no forwarding impl. -/
theorem C2_empty_failure (args : GenerateArgs) (b : ItemImpl)
    (hname : (traitName args b).isSome = true)
    (hempty : traitMethods args.all b.items = []) :
    generate_overwrites args b =
        [Decl.compileError emptyErrorMsg b.spanDebug, Decl.implBlock b] ∧
      ∃ pre post : String, emptyErrorMsg = pre ++ "overwrite" ++ post := by
  obtain ⟨tn, htn⟩ := Option.isSome_iff_exists.mp hname
  constructor
  · rw [generate_eq, htn]
    simp [hempty]
  · exact ⟨"Must ", " at least one function! \x7b\x7d", rfl⟩

/-- Closed instance of `C2_empty_failure`: a `Widget` block whose only
public method is marked `#[skip]` yields the failure artifact and the
echoed block. -/
theorem C2_witness :
    generate_overwrites exDefaultArgs exSkippedImpl =
      [Decl.compileError emptyErrorMsg exSkippedImpl.spanDebug,
       Decl.implBlock exSkippedImpl] :=
  (C2_empty_failure exDefaultArgs exSkippedImpl (by decide) (by decide)).1

/-- C3 counterexample: with a non-path target type and no `name` option,
the code emits no compile-time diagnostic at all — the output is just the
echoed block — refuting the claimed diagnostic. -/
theorem C3_counterexample :
    structName exTupleImpl = none ∧ exDefaultArgs.name = none ∧
      generate_overwrites exDefaultArgs exTupleImpl = [Decl.implBlock exTupleImpl] ∧
      (generate_overwrites exDefaultArgs exTupleImpl).all
        (fun d => ! d.isCompileError) = true :=
  ⟨rfl, rfl, rfl, rfl⟩

/-- C3 (amended): for every invocation whose implementation block's target
is not a simple named type and where no explicit `name` option was
supplied, the transformation silently emits only the original block — no
interface, no forwarding impl, and no diagnostic. -/
theorem C3_unresolvable_silent (args : GenerateArgs) (b : ItemImpl)
    (hs : structName b = none) (hn : args.name = none) :
    generate_overwrites args b = [Decl.implBlock b] := by
  have htn : traitName args b = none := by simp [traitName, hn, hs]
  rw [generate_eq, htn]
  simp

/-- Closed instance of `C3_unresolvable_silent` at a tuple-typed block. -/
theorem C3_witness :
    generate_overwrites exPassArgs exTupleImpl = [Decl.implBlock exTupleImpl] :=
  C3_unresolvable_silent exPassArgs exTupleImpl rfl rfl

/-- C4 counterexample: under the default-exclude policy the qualifying
method of `exWidgetImpl` carries the `#[overwrite]` marker, and the
generated interface signature retains that marker attribute (first
attribute of the emitted method) rather than dropping it, refuting the
claim that inclusion markers are not copied. -/
theorem C4_counterexample :
    generate_overwrites exExcludeArgs exWidgetImpl =
        [Decl.traitDecl "WidgetOverwrites" "" ""
           [{ attrs := [exOverwriteAttr, exDocAttr], sig := "fn tick(& self)" }],
         Decl.implBlock exWidgetImpl] ∧
      exOverwriteAttr.isIdent "overwrite" = true :=
  ⟨rfl, rfl⟩

/-- C4 (amended): each signature emitted in the generated interface
carries exactly that method's entire attribute list — non-marker
attributes and the inclusion markers alike — together with its signature
and nothing else (in particular no body: a `TraitMethod` has no body
component). -/
theorem C4_full_attrs_copied (args : GenerateArgs) (b : ItemImpl)
    (n ig wc : String) (ms : List TraitMethod)
    (h : Decl.traitDecl n ig wc ms ∈ generate_overwrites args b) :
    ms = ((fnMethods b.items).filter (qualifies args.all)).map
        (fun m => { attrs := m.attrs, sig := m.sig }) := by
  rw [(traitDecl_mem_generate h).2.2.2, traitMethods_eq_filter]

/-- Closed instance of `C4_full_attrs_copied` at `exWidgetImpl` under the
default-exclude policy. -/
theorem C4_witness :
    [({ attrs := [exOverwriteAttr, exDocAttr], sig := "fn tick(& self)" } : TraitMethod)] =
      ((fnMethods exWidgetImpl.items).filter (qualifies exExcludeArgs.all)).map
        (fun m => { attrs := m.attrs, sig := m.sig }) :=
  C4_full_attrs_copied exExcludeArgs exWidgetImpl "WidgetOverwrites" "" ""
    [{ attrs := [exOverwriteAttr, exDocAttr], sig := "fn tick(& self)" }] (by decide)

/-- C5: for every input on which option parsing succeeds, the original
implementation block is the last declaration of the output, unchanged,
whatever the classification outcome (trait emitted, failure artifact, or
nothing). -/
theorem C5_original_block_last (toks : List Tok) (args : GenerateArgs) (b : ItemImpl)
    (_h : parseArgs toks = Except.ok args) :
    (generate_overwrites args b).getLast? = some (Decl.implBlock b) := by
  rw [generate_eq]
  exact getLast_append_singleton _ _

/-- Closed instance of `C5_original_block_last`: the arguments
`passthrough` parse successfully and the block comes last. -/
theorem C5_witness :
    (generate_overwrites exPassArgs exWidgetImpl).getLast? =
      some (Decl.implBlock exWidgetImpl) :=
  C5_original_block_last [Tok.ident "passthrough"] exPassArgs exWidgetImpl rfl

/-- C6: the method sequence selected for the interface and the one
selected for the forwarding impl are projections of one and the same
ordered filter of the block's methods, and that filter is a sublist of the
declaration order (order preservation). -/
theorem C6_selection_identical (args : GenerateArgs) (b : ItemImpl) :
    traitMethods args.all b.items =
        ((fnMethods b.items).filter (qualifies args.all)).map
          (fun m => { attrs := m.attrs, sig := m.sig }) ∧
      implMethods args.all b.items =
        ((fnMethods b.items).filter (qualifies args.all)).map
          (fun m => { attrs := m.attrs, sig := m.sig, block := m.block }) ∧
      List.Sublist ((fnMethods b.items).filter (qualifies args.all)) (fnMethods b.items) :=
  ⟨traitMethods_eq_filter args.all b.items, implMethods_eq_filter args.all b.items,
    List.filter_sublist (fnMethods b.items)⟩

/-- C7 counterexample: with `passthrough` set and a non-empty qualifying
set, but an unresolvable interface name (non-path target, no `name`
option), no forwarding implementation is emitted — refuting the claimed
`if and only if`. -/
theorem C7_counterexample :
    exPassArgs.passthrough = true ∧
      implMethods exPassArgs.all exTupleImpl.items ≠ [] ∧
      (generate_overwrites exPassArgs exTupleImpl).all
        (fun d => ! d.isTraitImpl) = true :=
  ⟨rfl, by decide, rfl⟩

/-- C7 (amended): a forwarding implementation is emitted if and only if
`passthrough` is set, the qualifying set is non-empty, and the interface
name resolves; and any emitted forwarding impl is homed under the resolved
interface name, targets the original self type, and pairs each qualifying
method's signature and attributes with its original body, token-for-token,
in declaration order. -/
theorem C7_passthrough (args : GenerateArgs) (b : ItemImpl) :
    ((generate_overwrites args b).any (fun d => d.isTraitImpl) = true ↔
        args.passthrough = true ∧ traitMethods args.all b.items ≠ [] ∧
          (traitName args b).isSome = true) ∧
      ∀ (ig tn tyg wc : String) (sty : Ty) (ms : List ImplMethod),
        Decl.traitImpl ig tn tyg sty wc ms ∈ generate_overwrites args b →
          traitName args b = some tn ∧ sty = b.selfTy ∧
            ms = ((fnMethods b.items).filter (qualifies args.all)).map
              (fun m => { attrs := m.attrs, sig := m.sig, block := m.block }) := by
  constructor
  · cases htn : traitName args b <;> cases hpt : args.passthrough <;>
      by_cases he : (traitMethods args.all b.items).isEmpty <;>
        rw [List.isEmpty_iff] at he <;>
          simp [generate_eq, htn, hpt, he, Decl.isTraitImpl]
  · intro ig tn tyg wc sty ms h
    obtain ⟨_, h2, _, _, h5, _, h7⟩ := traitImpl_mem_generate h
    exact ⟨h2, h5, h7.trans (implMethods_eq_filter args.all b.items)⟩

/-- Closed instance of `C7_passthrough`: the forwarding impl generated for
`exWidgetImpl` under `passthrough` carries the original body verbatim. -/
theorem C7_witness :
    traitName exPassArgs exWidgetImpl = some "WidgetOverwrites" ∧
      Ty.path ["Widget"] = exWidgetImpl.selfTy ∧
      [({ attrs := [exOverwriteAttr, exDocAttr], sig := "fn tick(& self)",
          block := "tick_body" } : ImplMethod)] =
        ((fnMethods exWidgetImpl.items).filter (qualifies exPassArgs.all)).map
          (fun m => { attrs := m.attrs, sig := m.sig, block := m.block }) :=
  (C7_passthrough exPassArgs exWidgetImpl).2 "" "WidgetOverwrites" "" ""
    (Ty.path ["Widget"])
    [{ attrs := [exOverwriteAttr, exDocAttr], sig := "fn tick(& self)",
       block := "tick_body" }] (by decide)

/-- C8: with no `name` option and a path-typed target, the interface name
is the target's simple (last-segment) name suffixed with `Overwrites`;
with a `name` option it is exactly that identifier; and every generated
interface carries the resolved name. -/
theorem C8_naming (args : GenerateArgs) (b : ItemImpl) :
    (∀ nm, args.name = some nm → traitName args b = some nm) ∧
      (args.name = none →
        ∀ (segs : List String) (s : String), b.selfTy = Ty.path segs →
          segs.getLast? = some s → traitName args b = some (s ++ "Overwrites")) ∧
      ∀ (n ig wc : String) (ms : List TraitMethod),
        Decl.traitDecl n ig wc ms ∈ generate_overwrites args b →
          traitName args b = some n := by
  refine ⟨?_, ?_, ?_⟩
  · intro nm h
    simp [traitName, h]
  · intro hn segs s hty hl
    simp [traitName, hn, structName, hty, hl]
  · intro n ig wc ms h
    exact (traitDecl_mem_generate h).1

/-- Closed instance of `C8_naming`: `Widget` derives `WidgetOverwrites`,
and an explicit `name = "Custom"` yields `Custom`. -/
theorem C8_witness :
    traitName exDefaultArgs exWidgetImpl = some "WidgetOverwrites" ∧
      traitName exNamedArgs exWidgetImpl = some "Custom" :=
  ⟨(C8_naming exDefaultArgs exWidgetImpl).2.1 rfl ["Widget"] "Widget" rfl rfl,
   (C8_naming exNamedArgs exWidgetImpl).1 "Custom" rfl⟩

/-- C9: an argument list in which option tokens repeat is accepted, and
the final configuration is last-write-wins: `all` is set by the last
`default` token, the name by the last `name` token, and `passthrough` by
the presence of at least one `passthrough` token (so repeating it is the
same as supplying it once). -/
theorem C9_last_wins (ts : List ArgTok) (hv : ∀ a ∈ ts, a.valid = true) :
    parseArgs (renderComma ts) =
      Except.ok { all := lastAll true ts, passthrough := anyPass false ts,
                  name := lastName none ts } :=
  parseArgsAux_renderComma ts true false none hv

/-- Closed instance of `C9_last_wins` on a list duplicating every token:
the last `default` (`"skip"`) and the last `name` (`"B"`) win. -/
theorem C9_witness :
    parseArgs (renderComma exDupArgToks) =
      Except.ok { all := false, passthrough := true, name := some "B" } :=
  (C9_last_wins exDupArgToks (by decide)).trans rfl

/-- C10: the comma separator is optional — the separator-free rendering of
any well-formed option list parses to the same configuration as the
comma-separated rendering — while two consecutive commas after a token are
a parse error (the loop restarts on the second comma, which is not an
identifier). -/
theorem C10_commas_optional :
    (∀ ts : List ArgTok, (∀ a ∈ ts, a.valid = true) →
        parseArgs (renderPlain ts) = parseArgs (renderComma ts)) ∧
      ∀ (a : ArgTok) (rest : List Tok), a.valid = true →
        parseArgs (renderOne a ++ Tok.comma :: Tok.comma :: rest) =
          Except.error "expected identifier" := by
  constructor
  · intro ts hv
    rw [parseArgs, parseArgs, parseArgsAux_renderPlain ts true false none hv,
      parseArgsAux_renderComma ts true false none hv]
  · intro a rest ha
    exact parseArgsAux_double_comma a rest true false none ha

/-- Closed instance of `C10_commas_optional` on the duplicated token list
and on `passthrough ,,`. -/
theorem C10_witness :
    parseArgs (renderPlain exDupArgToks) = parseArgs (renderComma exDupArgToks) ∧
      parseArgs (renderOne ArgTok.passA ++ Tok.comma :: Tok.comma :: []) =
        Except.error "expected identifier" :=
  ⟨C10_commas_optional.1 exDupArgToks (by decide),
   C10_commas_optional.2 ArgTok.passA [] (by decide)⟩
